import Mathlib

/-!
Shallow embedding of the x-b-e/ember-uploader core
(src/addon/uploaders/uploader.js: the base Uploader object and the
SigningUploader that extends it).

JavaScript values the uploader manipulates are modelled by a small
inductive type; objects that the code reads or mutates field-wise are
modelled by dedicated structures; in-place mutation becomes explicit
state passing; the settled outcome of a deferred is an Except value.
-/

/-- Primitive JavaScript values handled by the uploader code paths:
undefined, null, strings, integers, Error objects and booleans. -/
inductive JVal where
  | undef
  | null
  | vstr (s : String)
  | vnum (n : Int)
  | verror (msg : String)
  | vbool (b : Bool)
  deriving DecidableEq, Repr

/-- JavaScript truthiness of a JVal: undefined and null are falsy, a
string is truthy iff non-empty, a number iff non-zero, an Error object
is always truthy. -/
def JVal.truthy : JVal → Bool
  | JVal.undef => false
  | JVal.null => false
  | JVal.vstr s => s != ""
  | JVal.vnum n => n != 0
  | JVal.verror _ => true
  | JVal.vbool b => b

/-- Embeds `typeof errorThrown === 'string' ? new Error(errorThrown) :
errorThrown` from Uploader.didError (uploader.js lines 137-141). -/
def wrapThrown : JVal → JVal
  | JVal.vstr s => JVal.verror s
  | v => v

/-- The first argument of didError: either a primitive (null, undefined,
a string, ...) which fails the `jqXHR !== null && typeof jqXHR ===
'object'` test, or a non-null object with its `then` and `errorThrown`
fields (JVal.undef models an absent field). -/
inductive ErrVal where
  | prim (v : JVal)
  | obj (thenField : JVal) (errorThrown : JVal)
  deriving DecidableEq, Repr

/-- A file handle: the three fields the code reads (name, type, size). -/
structure FileModel where
  name : String
  type : String
  size : Nat
  deriving DecidableEq, Repr

/-- One value appended to a FormData: either a plain field value or a
file handle. -/
inductive FormValue where
  | field (v : String)
  | file (f : FileModel)
  deriving DecidableEq, Repr

/-- FormData modelled as the ordered list of appended (key, value)
entries. -/
abbrev FormData := List (String × FormValue)

/-- FormData.append pushes one entry at the end, duplicates allowed. -/
def FormData.append (fd : FormData) (k : String) (v : FormValue) : FormData :=
  fd ++ [(k, v)]

/-- Construction-time configuration of the base Uploader (uploader.js
lines 12-34). paramNamespace is optional; JVal truthiness applies to it
(the source tests `this.paramNamespace ?`). -/
structure UploaderConfig where
  url : String
  method : String
  paramNamespace : Option String
  paramName : String
  deriving DecidableEq, Repr

/-- Truthiness of an optional string field of a parsed-JSON object: an
absent field (undefined) and the empty string are falsy. -/
def fieldTruthy : Option String → Bool
  | none => false
  | some s => s != ""

/-- Template-literal interpolation of an optional field: an absent field
renders as the string "undefined", exactly as a JavaScript template
literal renders the undefined value. -/
def renderField : Option String → String
  | none => "undefined"
  | some s => s

/-- Uploader.toNamespacedParam (uploader.js lines 102-106). -/
def toNamespacedParam (cfg : UploaderConfig) (name : String) : String :=
  if fieldTruthy cfg.paramNamespace then
    renderField cfg.paramNamespace ++ "[" ++ name ++ "]"
  else
    name

/-- The `files` argument of createFormData: the source distinguishes a
value whose constructor is FileList or Array (modelled as Files.list,
covering both) from a single file object (Files.single). -/
inductive Files where
  | single (f : FileModel)
  | list (fs : List FileModel)
  deriving DecidableEq, Repr

/-- Uploader.createFormData (uploader.js lines 70-94). The extra
mapping is modelled as the list of its own enumerable (key, value)
pairs in enumeration order, which is exactly what the guarded
`for ... in` loop of the source iterates over. -/
def createFormData (cfg : UploaderConfig) (files : Files) (extra : List (String × String)) : FormData :=
  let fd := extra.foldl
    (fun acc p => FormData.append acc (toNamespacedParam cfg p.1) (FormValue.field p.2)) []
  match files with
  | Files.list fs =>
      fs.foldl
        (fun acc f => FormData.append acc (toNamespacedParam cfg cfg.paramName ++ "[]") (FormValue.file f)) fd
  | Files.single f =>
      FormData.append fd (toNamespacedParam cfg cfg.paramName) (FormValue.file f)

/-- Per-instance mutable state plus the observable traces: the two
boolean flags, the names of the events triggered so far, and the trace
of Uploader.ajax invocations (url and form data). -/
structure St where
  isUploading : Bool
  isSigning : Bool
  events : List String
  ajaxCalls : List (String × FormData)
  deriving DecidableEq, Repr

/-- Uploader.didUpload (uploader.js lines 114-118): sets isUploading to
false, triggers the didUpload event, returns the data unchanged. -/
def Uploader.didUpload (st : St) (data : JVal) : St × JVal :=
  ({ st with isUploading := false, events := st.events ++ ["didUpload"] }, data)

/-- Uploader.didError (uploader.js lines 128-148): sets isUploading to
false; when the first argument is a non-null object, nulls its `then`
field and, when its errorThrown field is falsy, stores the passed
errorThrown there with a string wrapped in an Error; triggers didError;
returns the (mutated) first argument. -/
def Uploader.didError (st : St) (errObj : ErrVal) (textStatus errorThrown : JVal) : St × ErrVal :=
  let st1 := { st with isUploading := false }
  let shaped :=
    match errObj with
    | ErrVal.prim v => ErrVal.prim v
    | ErrVal.obj _ prev =>
        ErrVal.obj JVal.null (if prev.truthy then prev else wrapThrown errorThrown)
  let st2 := { st1 with events := st1.events ++ ["didError"] }
  (st2, shaped)

/-- The parsed signing response: the three fields the destination-URL
derivation reads (each possibly absent), plus the remaining policy
fields. -/
structure SignedPolicy where
  endpoint : Option String
  region : Option String
  bucket : Option String
  rest : List (String × String)
  deriving DecidableEq, Repr

/-- The destination-URL derivation of SigningUploader.upload
(uploader.js lines 261-269): `if (json.endpoint)` and
`else if (json.region)` are JavaScript truthiness tests; the selected
field is deleted; the bucket interpolations render an absent bucket as
"undefined". Returns the url and the policy object after deletion. -/
def resolvePolicy (json : SignedPolicy) : String × SignedPolicy :=
  if fieldTruthy json.endpoint then
    (renderField json.endpoint, { json with endpoint := none })
  else if fieldTruthy json.region then
    ("https://s3-" ++ renderField json.region ++ ".amazonaws.com/" ++ renderField json.bucket,
      { json with region := none })
  else
    ("https://" ++ renderField json.bucket ++ ".s3.amazonaws.com", json)

/-- The amended policy-resolution claim, written from its words: a
truthy (present and non-empty) endpoint field is used verbatim and
deleted; else a truthy region field selects the regional URL and is
deleted; else the default bucket URL is used and nothing is deleted. -/
def claimResolvePolicy (json : SignedPolicy) : String × SignedPolicy :=
  if fieldTruthy json.endpoint then
    (json.endpoint.getD "", { json with endpoint := none })
  else if fieldTruthy json.region then
    ("https://s3-" ++ json.region.getD "" ++ ".amazonaws.com/" ++ renderField json.bucket,
      { json with region := none })
  else
    ("https://" ++ renderField json.bucket ++ ".s3.amazonaws.com", json)

/-- The own enumerable fields of a SignedPolicy, as the `for ... in`
loop of createFormData sees them once the policy is passed as extra. -/
def SignedPolicy.ownFields (p : SignedPolicy) : List (String × String) :=
  (match p.endpoint with | some s => [("endpoint", s)] | none => []) ++
  (match p.region with | some s => [("region", s)] | none => []) ++
  (match p.bucket with | some s => [("bucket", s)] | none => []) ++
  p.rest

/-- The fulfilled continuation of SigningUploader.upload (uploader.js
lines 256-272): set isUploading to true, derive the destination url
from the signing response, call Uploader.ajax with the form data built
from the file and the remaining policy fields. -/
def signedUploadContinuation (cfg : UploaderConfig) (st : St) (file : FileModel)
    (json : SignedPolicy) : St × Except ErrVal Unit :=
  let st1 := { st with isUploading := true }
  let r := resolvePolicy json
  let fd := createFormData cfg (Files.single file) r.2.ownFields
  ({ st1 with ajaxCalls := st1.ajaxCalls ++ [(r.1, fd)] }, Except.ok ())

/-- Embeds Promise.then applied to a settled antecedent with only an
onFulfilled callback, as in `this.sign(file, extra).then((json) => ...)`:
a rejected antecedent bypasses the callback and the rejection value
propagates unchanged. -/
def thenSettled {α β : Type} (st : St) (p : Except ErrVal α)
    (f : St → α → St × Except ErrVal β) : St × Except ErrVal β :=
  match p with
  | Except.error e => (st, Except.error e)
  | Except.ok a => f st a

/-- SigningUploader.upload (uploader.js lines 255-273) as a function of
the settled outcome of the sign call. -/
def SigningUploader.uploadOutcome (cfg : UploaderConfig) (st : St) (file : FileModel)
    (signOutcome : Except ErrVal SignedPolicy) : St × Except ErrVal Unit :=
  thenSettled st signOutcome (fun s json => signedUploadContinuation cfg s file json)

/-- SigningUploader.didSign (uploader.js lines 338-341): triggers the
didSign event and returns the response unchanged. It does not touch
the isSigning flag. -/
def SigningUploader.didSign (st : St) (response : JVal) : St × JVal :=
  ({ st with events := st.events ++ ["didSign"] }, response)

/-- SigningUploader.didErrorOnSign (uploader.js lines 325-330): sets
isSigning to false, triggers didErrorOnSign with no payload, delegates
to Uploader.didError, returns the (mutated) first argument. -/
def SigningUploader.didErrorOnSign (st : St) (errObj : ErrVal) (textStatus errorThrown : JVal) :
    St × ErrVal :=
  let st1 := { st with isSigning := false }
  let st2 := { st1 with events := st1.events ++ ["didErrorOnSign"] }
  Uploader.didError st2 errObj textStatus errorThrown

/-- Terminal outcome of an XMLHttpRequest transport. Per the platform
semantics of XMLHttpRequest, the load event fires whenever the transfer
completes, for every HTTP status, and the error event fires only on a
network-level failure; the source installs xhr.onload and xhr.onerror
and never reads xhr.status. -/
inductive XhrOutcome where
  | completed (status : Nat) (response : String)
  | networkError
  deriving DecidableEq, Repr

/-- How a deferred settles: resolved with a value or rejected with an
error descriptor. -/
inductive SettleResult where
  | resolved (v : JVal)
  | rejected (e : ErrVal)
  deriving DecidableEq, Repr

/-- The settlement wiring of Uploader.ajaxPromise (uploader.js lines
206-213): onload resolves with didUpload applied to xhr.response, the
status never being inspected; onerror is invoked by the platform with
the error ProgressEvent (an object carrying neither a then nor an
errorThrown field) as its only argument, so responseText and
errorThrown are undefined, and rejects with didError applied to it. -/
def ajaxSettle (st : St) (outcome : XhrOutcome) : St × SettleResult :=
  match outcome with
  | XhrOutcome.completed _ response =>
      let r := Uploader.didUpload st (JVal.vstr response)
      (r.1, SettleResult.resolved r.2)
  | XhrOutcome.networkError =>
      let r := Uploader.didError st (ErrVal.obj JVal.undef JVal.undef) JVal.undef JVal.undef
      (r.1, SettleResult.rejected r.2)

/-- The settlement wiring inside SigningUploader.sign (uploader.js
lines 303-314): onload resolves with didSign applied to xhr.response,
the status never being inspected; onerror rejects with didErrorOnSign
applied to the error event and two undefined arguments. -/
def signSettle (st : St) (outcome : XhrOutcome) : St × SettleResult :=
  match outcome with
  | XhrOutcome.completed _ response =>
      let r := SigningUploader.didSign st (JVal.vstr response)
      (r.1, SettleResult.resolved r.2)
  | XhrOutcome.networkError =>
      let r := SigningUploader.didErrorOnSign st (ErrVal.obj JVal.undef JVal.undef) JVal.undef JVal.undef
      (r.1, SettleResult.rejected r.2)

/-- Construction-time configuration of the SigningUploader (uploader.js
lines 230-245 plus the signingAjaxSettings headers mapping it reads);
signingHeaders is none when signingAjaxSettings.headers is not
configured, in which case `get` yields undefined. -/
structure SigningConfig where
  signingUrl : String
  signingMethod : String
  signingHeaders : Option (List (String × String))
  deriving DecidableEq, Repr

/-- ASCII lowercasing of a character code, as both String.toLowerCase
and the i flag of a regular expression treat the ASCII letters of an
HTTP method name. -/
def lowerCode (c : Char) : Nat :=
  if 65 ≤ c.toNat && c.toNat ≤ 90 then c.toNat + 32 else c.toNat

/-- Case-insensitive scan for the three consecutive letters g, e, t
(codes 103, 101, 116) anywhere in a character list. -/
def hasGetSub : List Char → Bool
  | a :: b :: c :: rest =>
      (lowerCode a == 103 && lowerCode b == 101 && lowerCode c == 116)
        || hasGetSub (b :: c :: rest)
  | _ => false

/-- Embeds `method.match(/get/i)`: the regular expression matches when
"get" occurs anywhere in the method, case-insensitively. -/
def matchesGetCI (method : String) : Bool :=
  hasGetSub method.data

/-- JSON.stringify restricted to string-valued flat objects, which is
all the signing payload needs (no escaping modelled; no claim depends
on escaping). -/
def jsonStringify (fields : List (String × String)) : String :=
  "\x7b" ++ String.intercalate ","
    (fields.map (fun p => "\"" ++ p.1 ++ "\":\"" ++ p.2 ++ "\"")) ++ "\x7d"

/-- JavaScript property assignment on a flat string-valued object:
overwrite in place when the key exists, else append. -/
def setField (l : List (String × String)) (k v : String) : List (String × String) :=
  if l.any (fun p => p.1 == k) then
    l.map (fun p => if p.1 == k then (k, v) else p)
  else
    l ++ [(k, v)]

/-- The mutation `extra.name = file.name; extra.type = file.type;
extra.size = file.size` of SigningUploader.sign (uploader.js lines
288-290); the numeric size is rendered as its decimal string. -/
def augmentExtra (extra : List (String × String)) (file : FileModel) : List (String × String) :=
  setField (setField (setField extra "name" file.name) "type" file.type) "size" (toString file.size)

/-- The body handed to xhr.send by SigningUploader.sign: for a method
matching /get/i the extra object itself, raw and not query-encoded;
otherwise the JSON.stringify string. -/
inductive SignBody where
  | rawObject (extra : List (String × String))
  | jsonString (s : String)
  deriving DecidableEq, Repr

/-- The signing request as assembled by SigningUploader.sign: method,
url (exactly signingUrl, no query string is ever appended), the headers
in the order they are set, and the send body. -/
structure SignRequest where
  method : String
  url : String
  headers : List (String × String)
  body : SignBody
  deriving DecidableEq, Repr

/-- Request construction of SigningUploader.sign (uploader.js lines
283-299) when the configured headers mapping is present: augments
extra with the file metadata, chooses the body by `method.match(/get/i)`,
opens signingMethod against signingUrl, sets Content-Type:
application/json unconditionally and then every configured header. -/
def buildSignRequest (cfg : SigningConfig) (file : FileModel) (extra : List (String × String))
    (hs : List (String × String)) : SignRequest :=
  let extra2 := augmentExtra extra file
  let data := if matchesGetCI cfg.signingMethod then SignBody.rawObject extra2
              else SignBody.jsonString (jsonStringify extra2)
  { method := cfg.signingMethod
    url := cfg.signingUrl
    headers := ("Content-Type", "application/json") :: hs
    body := data }

/-- Message of the synchronous TypeError raised by Object.keys(undefined). -/
def typeErrorKeysMsg : String := "TypeError: Cannot convert undefined or null to object"

/-- What a call performed on the transport before finishing or
throwing: whether open was reached (method, url), the headers set, and
whether send was reached. -/
structure AjaxAttempt where
  openedMethod : Option String
  openedUrl : Option String
  headersSet : List (String × String)
  sent : Bool
  deriving DecidableEq, Repr

/-- Uploader.ajax (uploader.js lines 178-190): opens the request, reads
ajaxSettings.headers and enumerates its keys with Object.keys — which
throws a synchronous TypeError when the mapping is undefined, before
ajaxPromise ever sends — then hands over to ajaxPromise, which sends. -/
def Uploader.ajax (headersCfg : Option (List (String × String))) (url : String)
    (data : FormData) (method : String) : AjaxAttempt × Except String FormData :=
  let att : AjaxAttempt :=
    { openedMethod := some method, openedUrl := some url, headersSet := [], sent := false }
  match headersCfg with
  | none => (att, Except.error typeErrorKeysMsg)
  | some hs => ({ att with headersSet := hs, sent := true }, Except.ok data)

/-- The request-construction phase of SigningUploader.sign (uploader.js
lines 283-299): open and the unconditional Content-Type header happen
first; Object.keys(signingAjaxSettings) then throws a synchronous
TypeError when the configured mapping is undefined, before the promise
is created and before xhr.send. -/
def SigningUploader.signAttempt (cfg : SigningConfig) (file : FileModel)
    (extra : List (String × String)) : AjaxAttempt × Except String SignRequest :=
  let att : AjaxAttempt :=
    { openedMethod := some cfg.signingMethod, openedUrl := some cfg.signingUrl,
      headersSet := [("Content-Type", "application/json")], sent := false }
  match cfg.signingHeaders with
  | none => (att, Except.error typeErrorKeysMsg)
  | some hs =>
      let req := buildSignRequest cfg file extra hs
      ({ att with headersSet := req.headers, sent := true }, Except.ok req)

/-- The this-binding of a callback: an arrow function keeps the lexical
this (the uploader), a plain function invoked by addEventListener gets
this bound to the currentTarget of the event. -/
inductive ThisBinding where
  | lexicalUploader
  | eventTarget
  deriving DecidableEq, Repr

/-- The progress listener registered by ajaxPromise (uploader.js lines
201-203) is written `function (evt) ...`, a plain function — the only
non-arrow callback in the file. -/
def progressListenerBinding : ThisBinding := ThisBinding.eventTarget

/-- The two objects this can resolve to inside that listener: the
uploader instance, or the xhr.upload object (an XMLHttpRequestUpload)
that is the currentTarget of upload-progress events. -/
inductive JSReceiver where
  | uploader
  | xhrUpload
  deriving DecidableEq, Repr

/-- Only the uploader instance owns a didProgress method; the
XMLHttpRequestUpload object exposes no such member. -/
def hasDidProgress : JSReceiver → Bool
  | JSReceiver.uploader => true
  | JSReceiver.xhrUpload => false

/-- Resolution of this inside the progress listener when the platform
dispatches an upload-progress event. -/
def listenerThis : ThisBinding → JSReceiver
  | ThisBinding.lexicalUploader => JSReceiver.uploader
  | ThisBinding.eventTarget => JSReceiver.xhrUpload

/-- A transport upload-progress event: the byte counts the claim is
about. -/
structure ProgressEvent where
  loaded : Nat
  total : Nat
  deriving DecidableEq, Repr

/-- Outcome of dispatching a progress event into the registered
listener: either this.didProgress(evt) is actually invoked on the
uploader, or the member lookup fails and the call throws. -/
inductive ProgressDispatch where
  | invokedDidProgress (evt : ProgressEvent)
  | typeError (msg : String)
  deriving DecidableEq, Repr

/-- Dispatch of one transport upload-progress event through the
listener the source registered: resolve this per the listener kind,
look didProgress up on it, invoke or throw. -/
def dispatchProgress (evt : ProgressEvent) : ProgressDispatch :=
  if hasDidProgress (listenerThis progressListenerBinding) then
    ProgressDispatch.invokedDidProgress evt
  else
    ProgressDispatch.typeError "this.didProgress is not a function"

/-- State of the abort wiring: the isUploading flag, whether the
one-shot isAborting listener registered by ajaxPromise is still armed,
and how many times xhr.abort has been invoked. -/
structure AbortState where
  isUploading : Bool
  oneShotArmed : Bool
  xhrAbortCalls : Nat
  deriving DecidableEq, Repr

/-- ajaxPromise line 204: `this.one('isAborting', () => xhr.abort())`
arms the one-shot listener. -/
def armAbortListener (st : AbortState) : AbortState :=
  { st with oneShotArmed := true }

/-- Evented trigger of isAborting: a listener registered with `one` is
removed as it fires, so it invokes xhr.abort at most once; with no
armed listener the trigger is a no-op. -/
def triggerIsAborting (st : AbortState) : AbortState :=
  if st.oneShotArmed then
    { st with oneShotArmed := false, xhrAbortCalls := st.xhrAbortCalls + 1 }
  else
    st

/-- Uploader.abort (uploader.js lines 163-166): sets isUploading to
false then triggers isAborting. -/
def Uploader.abort (st : AbortState) : AbortState :=
  triggerIsAborting { st with isUploading := false }

/-- n consecutive calls of Uploader.abort. -/
def abortN : Nat → AbortState → AbortState
  | 0, st => st
  | n + 1, st => abortN n (Uploader.abort st)

/-! Helper lemmas. -/

/-- Under truthiness, renderField agrees with getD of the empty string. -/
theorem renderField_eq_getD (o : Option String) (h : fieldTruthy o = true) :
    renderField o = o.getD "" := by
  cases o with
  | none => simp [fieldTruthy] at h
  | some s => rfl

/-- Folding FormData.append of fields over the extra pairs appends
their images in order. -/
theorem foldl_extraAppend (cfg : UploaderConfig) (extra : List (String × String))
    (init : FormData) :
    extra.foldl
      (fun acc p => FormData.append acc (toNamespacedParam cfg p.1) (FormValue.field p.2)) init =
      init ++ extra.map (fun p => (toNamespacedParam cfg p.1, FormValue.field p.2)) := by
  induction extra generalizing init with
  | nil => simp
  | cons x xs ih =>
      rw [List.foldl_cons, ih]
      simp [FormData.append]

/-- Folding FormData.append of files under one fixed key appends their
images in order. -/
theorem foldl_fileAppend (key : String) (fs : List FileModel) (init : FormData) :
    fs.foldl (fun acc f => FormData.append acc key (FormValue.file f)) init =
      init ++ fs.map (fun f => (key, FormValue.file f)) := by
  induction fs generalizing init with
  | nil => simp
  | cons x xs ih =>
      rw [List.foldl_cons, ih]
      simp [FormData.append]

/-- An abort on a state whose one-shot listener is gone and whose
isUploading flag is already false changes nothing. -/
theorem abortN_disarmed_fixed (n : Nat) (st : AbortState) (h : st.oneShotArmed = false)
    (hu : st.isUploading = false) : abortN n st = st := by
  induction n generalizing st with
  | zero => rfl
  | succ k ih =>
      have habort : Uploader.abort st = st := by
        cases st
        simp_all [Uploader.abort, triggerIsAborting]
      show abortN k (Uploader.abort st) = st
      rw [habort]
      exact ih st h hu

/-! Claim theorems. -/

/-- C1 counterexample: the signing response with endpoint present but
equal to the empty string and bucket "b". The claim as stated says the
URL is that endpoint value verbatim (the empty string) and that
endpoint is deleted; the code instead skips the endpoint branch
(JavaScript truthiness), derives the default bucket URL, and leaves the
endpoint field in place. -/
theorem C1_presence_counterexample :
    (resolvePolicy { endpoint := some "", region := none, bucket := some "b", rest := [] }).1 ≠ "" ∧
    (resolvePolicy { endpoint := some "", region := none, bucket := some "b", rest := [] }).2.endpoint
      = some "" ∧
    (resolvePolicy { endpoint := some "", region := none, bucket := some "b", rest := [] }).1
      = "https://b.s3.amazonaws.com" := by
  refine ⟨?_, rfl, rfl⟩
  decide

/-- C1 (amended): the destination URL and field deletion follow the
three branches selected by truthiness (present and non-empty) of
endpoint, then region; the selected selector field is deleted and the
bucket field is never deleted. -/
theorem C1_policyResolution (json : SignedPolicy) :
    resolvePolicy json = claimResolvePolicy json ∧
    (resolvePolicy json).2.bucket = json.bucket := by
  constructor
  · unfold resolvePolicy claimResolvePolicy
    split_ifs with h1 h2
    · rw [renderField_eq_getD json.endpoint h1]
    · rw [renderField_eq_getD json.region h2]
    · rfl
  · unfold resolvePolicy
    split_ifs <;> rfl

/-- C2: createFormData first appends one field per own enumerable key
of extra under its namespaced name, in enumeration order; then, for an
Array or FileList of files, exactly one entry per file, all under the
single key namespacedParamName ++ "[]", in input order; for a single
file, exactly one entry under namespacedParamName with no suffix. -/
theorem C2_createFormDataShape (cfg : UploaderConfig) (extra : List (String × String)) :
    (∀ fs : List FileModel,
        createFormData cfg (Files.list fs) extra =
          extra.map (fun p => (toNamespacedParam cfg p.1, FormValue.field p.2)) ++
          fs.map (fun f => (toNamespacedParam cfg cfg.paramName ++ "[]", FormValue.file f))) ∧
    (∀ f : FileModel,
        createFormData cfg (Files.single f) extra =
          extra.map (fun p => (toNamespacedParam cfg p.1, FormValue.field p.2)) ++
          [(toNamespacedParam cfg cfg.paramName, FormValue.file f)]) := by
  constructor
  · intro fs
    simp [createFormData, foldl_extraAppend, foldl_fileAppend]
  · intro f
    simp only [createFormData]
    rw [foldl_extraAppend]
    simp [FormData.append]

/-- C3: when the sign call settles rejected, SigningUploader.upload
leaves the state untouched (no ajax call is recorded, isUploading is
not set) and its own deferred rejects with the same value. -/
theorem C3_signRejectionShortCircuits (cfg : UploaderConfig) (st : St) (file : FileModel)
    (e : ErrVal) :
    SigningUploader.uploadOutcome cfg st file (Except.error e) = (st, Except.error e) ∧
    (SigningUploader.uploadOutcome cfg st file (Except.error e)).1.ajaxCalls = st.ajaxCalls ∧
    (SigningUploader.uploadOutcome cfg st file (Except.error e)).1.isUploading = st.isUploading := by
  exact ⟨rfl, rfl, rfl⟩

/-- C4 counterexample: the upload transport completes with HTTP status
500. The claim says such a completion is converted into didError plus a
rejection; the code never reads the status, so the load handler runs,
didUpload fires and the deferred resolves as a success. -/
theorem C4_status_counterexample :
    (ajaxSettle { isUploading := true, isSigning := false, events := [], ajaxCalls := [] }
        (XhrOutcome.completed 500 "server error")).2
      = SettleResult.resolved (JVal.vstr "server error") ∧
    (ajaxSettle { isUploading := true, isSigning := false, events := [], ajaxCalls := [] }
        (XhrOutcome.completed 500 "server error")).1.events
      = ["didUpload"] := by
  exact ⟨rfl, rfl⟩

/-- C4 (amended): a transport network failure on the upload call is
converted into a didError event plus a rejected result, and on the
signing call into didErrorOnSign followed by didError plus a rejected
result; a completed response resolves as a success through didUpload
(respectively didSign) whatever its HTTP status, the status never being
inspected. -/
theorem C4_transportSettlement (st : St) (status : Nat) (resp : String) :
    (ajaxSettle st XhrOutcome.networkError).1.isUploading = false ∧
    (ajaxSettle st XhrOutcome.networkError).1.events = st.events ++ ["didError"] ∧
    (ajaxSettle st XhrOutcome.networkError).2
      = SettleResult.rejected (ErrVal.obj JVal.null JVal.undef) ∧
    (signSettle st XhrOutcome.networkError).1.isSigning = false ∧
    (signSettle st XhrOutcome.networkError).1.isUploading = false ∧
    (signSettle st XhrOutcome.networkError).1.events
      = st.events ++ ["didErrorOnSign", "didError"] ∧
    (signSettle st XhrOutcome.networkError).2
      = SettleResult.rejected (ErrVal.obj JVal.null JVal.undef) ∧
    (ajaxSettle st (XhrOutcome.completed status resp)).2
      = SettleResult.resolved (JVal.vstr resp) ∧
    (ajaxSettle st (XhrOutcome.completed status resp)).1.isUploading = false ∧
    (ajaxSettle st (XhrOutcome.completed status resp)).1.events = st.events ++ ["didUpload"] ∧
    (signSettle st (XhrOutcome.completed status resp)).2
      = SettleResult.resolved (JVal.vstr resp) ∧
    (signSettle st (XhrOutcome.completed status resp)).1.events = st.events ++ ["didSign"] := by
  refine ⟨rfl, rfl, rfl, rfl, rfl, ?_, rfl, rfl, rfl, rfl, rfl, rfl⟩
  simp [signSettle, SigningUploader.didErrorOnSign, Uploader.didError]

/-- C5 counterexample: didError called with an errObj that is an object
without a prior errorThrown field and with a null errorThrown argument.
The claim says the attached thrown-error field is guaranteed non-null;
the code attaches the null value itself. -/
theorem C5_nullThrown_counterexample :
    (Uploader.didError { isUploading := true, isSigning := false, events := [], ajaxCalls := [] }
        (ErrVal.obj JVal.undef JVal.undef) (JVal.vstr "error") JVal.null).2
      = ErrVal.obj JVal.null JVal.null := by
  exact rfl

/-- C5 (amended): didError sets isUploading to false; on a non-null
object errObj it nulls the then field and, when the prior errorThrown
field is falsy, attaches the passed errorThrown with a string wrapped
in an Error value (the attached field is null or undefined exactly when
that argument is); it returns errObj, a primitive errObj passing
through unchanged. -/
theorem C5_didErrorShaping (st : St) (t prev ts et v : JVal) :
    (Uploader.didError st (ErrVal.obj t prev) ts et).1.isUploading = false ∧
    (Uploader.didError st (ErrVal.obj t prev) ts et).2
      = ErrVal.obj JVal.null (if prev.truthy then prev else wrapThrown et) ∧
    (Uploader.didError st (ErrVal.prim v) ts et).1.isUploading = false ∧
    (Uploader.didError st (ErrVal.prim v) ts et).2 = ErrVal.prim v := by
  exact ⟨rfl, rfl, rfl, rfl⟩

/-- C6 at its failing input: didUpload passes its value through with
isUploading false afterwards, as claimed; but didSign, called while
isSigning is true, returns its value with isSigning still true — the
code never resets the flag, contradicting the claim and the doc comment
of the isSigning property (false upon signing end). -/
theorem C6_didSignKeepsSigningFlag :
    (Uploader.didUpload { isUploading := true, isSigning := true, events := [], ajaxCalls := [] }
        (JVal.vstr "d")).2 = JVal.vstr "d" ∧
    (Uploader.didUpload { isUploading := true, isSigning := true, events := [], ajaxCalls := [] }
        (JVal.vstr "d")).1.isUploading = false ∧
    (SigningUploader.didSign { isUploading := false, isSigning := true, events := [], ajaxCalls := [] }
        (JVal.vstr "r")).2 = JVal.vstr "r" ∧
    (SigningUploader.didSign { isUploading := false, isSigning := true, events := [], ajaxCalls := [] }
        (JVal.vstr "r")).1.isSigning = true := by
  exact ⟨rfl, rfl, rfl, rfl⟩

/-- C7 counterexample: a GET signing call with no configured extra
headers. The claim says extra is sent as query-style data and that the
Content-Type: application/json header belongs to the non-GET encoding;
the code leaves the url without any query string, passes the raw
augmented extra object as the send body, and sets the Content-Type
header for GET as well. -/
theorem C7_get_counterexample :
    buildSignRequest { signingUrl := "/sign", signingMethod := "GET", signingHeaders := some [] }
        { name := "a.txt", type := "text/plain", size := 3 } [] [] =
      { method := "GET"
        url := "/sign"
        headers := [("Content-Type", "application/json")]
        body := SignBody.rawObject [("name", "a.txt"), ("type", "text/plain"), ("size", "3")] } := by
  decide

/-- C7 (amended): the signing request always carries the Content-Type:
application/json header first, followed by the configured signing
headers; its url is the signing url unchanged (never query-encoded);
its body is the raw augmented extra object when the method matches get
case-insensitively and the JSON serialization of the augmented extra
otherwise. -/
theorem C7_signRequestShape (cfg : SigningConfig) (file : FileModel)
    (extra hs : List (String × String)) :
    (buildSignRequest cfg file extra hs).url = cfg.signingUrl ∧
    (buildSignRequest cfg file extra hs).headers = ("Content-Type", "application/json") :: hs ∧
    (buildSignRequest cfg file extra hs).body
      = (if matchesGetCI cfg.signingMethod then SignBody.rawObject (augmentExtra extra file)
         else SignBody.jsonString (jsonStringify (augmentExtra extra file))) := by
  exact ⟨rfl, rfl, rfl⟩

/-- C8 at its failing input: the progress listener registered by
ajaxPromise is a plain function, so the platform binds this to the
event target xhr.upload, which has no didProgress member; dispatching
the progress event with loaded 50 and total 200 therefore throws a
TypeError instead of invoking Uploader.didProgress on the uploader. -/
theorem C8_progressListenerThrows :
    progressListenerBinding = ThisBinding.eventTarget ∧
    dispatchProgress { loaded := 50, total := 200 }
      = ProgressDispatch.typeError "this.didProgress is not a function" := by
  exact ⟨rfl, rfl⟩

/-- C9: starting from a state with no prior xhr.abort invocations, once
ajaxPromise has armed the one-shot isAborting listener, any positive
number of abort calls before completion invokes the abort primitive of
the transport exactly once and leaves isUploading false. -/
theorem C9_abortExactlyOnce (st : AbortState) (n : Nat) (hn : 1 ≤ n)
    (h0 : st.xhrAbortCalls = 0) :
    (abortN n (armAbortListener st)).xhrAbortCalls = 1 ∧
    (abortN n (armAbortListener st)).isUploading = false := by
  cases n with
  | zero => omega
  | succ m =>
      have habort : Uploader.abort (armAbortListener st) =
          { isUploading := false, oneShotArmed := false, xhrAbortCalls := st.xhrAbortCalls + 1 } := by
        cases st
        simp [Uploader.abort, armAbortListener, triggerIsAborting]
      have hstep : abortN (m + 1) (armAbortListener st) =
          abortN m (Uploader.abort (armAbortListener st)) := rfl
      rw [hstep, habort, h0,
        abortN_disarmed_fixed m { isUploading := false, oneShotArmed := false, xhrAbortCalls := 0 + 1 } rfl rfl]
      exact ⟨rfl, rfl⟩

/-- C9 witness: two abort calls after arming, from a fresh uploading
state, yield exactly one transport abort and isUploading false. -/
theorem C9_abortExactlyOnce_witness :
    (abortN 2 (armAbortListener
        { isUploading := true, oneShotArmed := false, xhrAbortCalls := 0 })).xhrAbortCalls = 1 ∧
    (abortN 2 (armAbortListener
        { isUploading := true, oneShotArmed := false, xhrAbortCalls := 0 })).isUploading = false :=
  C9_abortExactlyOnce { isUploading := true, oneShotArmed := false, xhrAbortCalls := 0 } 2
    (by decide) rfl

/-- C10: with the respective headers mapping unconfigured, Uploader.ajax
and SigningUploader.sign throw a synchronous TypeError at the key
enumeration, after opening the request but before anything is sent, and
no deferred is returned. -/
theorem C10_missingHeadersThrows (url method : String) (data : FormData)
    (surl smethod : String) (file : FileModel) (extra : List (String × String)) :
    (Uploader.ajax none url data method).2 = Except.error typeErrorKeysMsg ∧
    (Uploader.ajax none url data method).1.sent = false ∧
    (SigningUploader.signAttempt
        { signingUrl := surl, signingMethod := smethod, signingHeaders := none } file extra).2
      = Except.error typeErrorKeysMsg ∧
    (SigningUploader.signAttempt
        { signingUrl := surl, signingMethod := smethod, signingHeaders := none } file extra).1.sent
      = false := by
  exact ⟨rfl, rfl, rfl, rfl⟩
